import Mathlib

/-! Smart-home bridge: device registry, command dispatcher and broker message handler.

A shallow embedding of `src/server/models/device.js`, `src/server/routes/devices.js`,
`src/server/routes/events.js` and `src/server/utils/mqttClient.js`.

* The persistent store is a list of device records; `findOne` returns the first record
  with the given `deviceId`, `save` and `updateOne` write to that record. Store failures
  (the `catch` branches answering 500 on a database error) are not modelled.
* A record's `data` is the value assigned to `device.data`. The library's `minimize`
  option, which on `save()` drops empty objects from the stored value (a payload `{}` is
  stored as no data at all), is not modelled: no statement below relies on the stored form
  of a payload that contains an empty object.
* The `deviceId` and `deviceType` fields of a registration message are modelled when they
  are strings or absent; the library's handling of other JSON kinds (numbers converted to
  text, objects run as query operators) is not modelled.
* A broker payload is `Option JVal`: `none` is a text on which `JSON.parse` throws,
  `some v` is the decoded value.
* `mqttClient.publish` is modelled by the list of publish calls issued, and by a flag
  telling whether the broker acknowledges (callback called with no error).
-/

namespace SmartHome

/-! ## Data model -/

/-- JSON values, as returned by `JSON.parse`. An object is the list of its own properties,
each key once. -/
inductive JVal where
  | null
  | bool (b : Bool)
  | num (n : Int)
  | str (s : String)
  | arr (xs : List JVal)
  | obj (fields : List (String × JVal))

/-- Property access `msg.<key>` on a non-null value: the property of an object, and
`undefined` (`none`) when the object has no such property or the value is a primitive or
an array (none of `status`, `deviceId`, `deviceType` is a property of those). -/
def JVal.field (v : JVal) (key : String) : Option JVal :=
  match v with
  | .obj fields => fields.lookup key
  | _ => none

/-- The `enum` of the schema's `status` path: `['off', 'active', 'triggered']`. -/
inductive Status where
  | off
  | active
  | triggered
  deriving DecidableEq, Repr

/-- The text of a status, as it is interpolated in response messages. -/
def Status.text : Status → String
  | .off => "off"
  | .active => "active"
  | .triggered => "triggered"

/-- A document of `deviceSchema` (models/device.js). `data` is `none` while the Mixed path
has never been set. -/
structure Device where
  deviceId : String
  deviceType : String
  data : Option JVal
  status : Status
  commands : List JVal

/-- The devices collection. -/
abbrev Registry := List Device

/-- Constructor `new Device({ deviceId, deviceType })`: `status` takes the schema default
`'active'`, `data` is unset and `commands` is the empty array. -/
def Device.new (deviceId deviceType : String) : Device :=
  { deviceId := deviceId, deviceType := deviceType, data := none,
    status := Status.active, commands := [] }

/-- Query `Device.findOne({ deviceId })`: the first document with that id, or `null`. -/
def findOne : Registry → String → Option Device
  | [], _ => none
  | d :: rest, deviceId => if d.deviceId = deviceId then some d else findOne rest deviceId

/-- Write `Device.updateOne({ deviceId }, { status })`: sets the status of the first
document with that id; no document is created when there is none. -/
def updateOne : Registry → String → Status → Registry
  | [], _, _ => []
  | d :: rest, deviceId, status =>
    if d.deviceId = deviceId then { d with status := status } :: rest
    else d :: updateOne rest deviceId status

/-- Writing back with `device.save()` a document obtained by `findOne({ deviceId })`: the
stored document it was read from (the first with that id) is replaced by `doc`. -/
def saveExisting : Registry → String → Device → Registry
  | [], _, _ => []
  | d :: rest, deviceId, doc =>
    if d.deviceId = deviceId then doc :: rest
    else d :: saveExisting rest deviceId doc

/-- Saving with `device.save()` a document made by `new Device(...)`: it is inserted. -/
def saveNew (reg : Registry) (doc : Device) : Registry :=
  reg ++ [doc]

/-- The `required: true` validator of a String path of the schema, run by `save()`: it
passes for a non-empty string and fails for an absent value, `null` and the empty string.
Only string values are modelled: a value of another JSON kind is treated as failing too
(the library's conversion of numbers and booleans to text is outside this model). -/
def requiredString : Option JVal → Option String
  | some (.str s) => if s = "" then none else some s
  | _ => none

/-- The value of a field used as the `deviceId` of a query filter: a string selects the
documents with that id; an absent or non-string value selects no document. -/
def filterKey : Option JVal → Option String
  | some (.str s) => some s
  | _ => none

/-! ## Outgoing broker messages and HTTP responses -/

/-- One call of `mqttClient.publish(topic, JSON.stringify(payload), ...)`. -/
structure Publish where
  topic : String
  payload : JVal
  retain : Bool

/-- The body of a JSON response. -/
inductive Body where
  | error (text : String)
  | message (text : String)
  | data (value : Option JVal)
  | status (value : Status)

/-- A response `res.status(code).json(body)`. -/
structure Response where
  code : Nat
  body : Body

/-- What a request handler leaves behind: the registry, the response, and the publish
calls it issued, in order. -/
structure HttpResult where
  reg : Registry
  resp : Response
  published : List Publish

/-! ## routes/devices.js -/

/-- The constant `allowedDeviceTypes`. -/
def allowedDeviceTypes : List String :=
  ["light_bulb", "energy_tracker", "smart_switch", "door_bell", "security_camera"]

/-- JavaScript truthiness of a body field that is absent or a string: `!x` holds for an
absent field and for the empty string. -/
def truthy : Option String → Bool
  | none => false
  | some s => s != ""

/-- Handler `router.post('/register')`. The fields of the request body are absent or
strings. The publish callback only logs, so the answer does not depend on the broker. -/
def postRegister (reg : Registry) (deviceId deviceType : Option String) : HttpResult :=
  match deviceId, deviceType with
  | some id, some ty =>
    if !truthy (some id) || !truthy (some ty) then
      { reg := reg, published := [],
        resp := ⟨400, .error "deviceId and deviceType are required."⟩ }
    else if !allowedDeviceTypes.contains ty then
      { reg := reg, published := [], resp := ⟨400, .error "Invalid deviceType."⟩ }
    else
      match findOne reg id with
      | some _ =>
        { reg := reg, published := [], resp := ⟨400, .error "Device already exists."⟩ }
      | none =>
        { reg := saveNew reg (Device.new id ty),
          published :=
            [{ topic := "devices/register",
               payload := .obj [("deviceId", .str id), ("deviceType", .str ty)],
               retain := true }],
          resp := ⟨201, .message "Device registered successfully."⟩ }
  | _, _ =>
    { reg := reg, published := [],
      resp := ⟨400, .error "deviceId and deviceType are required."⟩ }

/-- Handler `router.get('/:deviceId/data')`. -/
def getData (reg : Registry) (deviceId : String) : Response :=
  match findOne reg deviceId with
  | none => ⟨404, .error "Device not found."⟩
  | some device => ⟨200, .data device.data⟩

/-- Handler `router.get('/:deviceId/status')`. -/
def getStatus (reg : Registry) (deviceId : String) : Response :=
  match findOne reg deviceId with
  | none => ⟨404, .error "Device not found."⟩
  | some device => ⟨200, .status device.status⟩

/-- Handler `router.post('/:deviceId/commands')`. `command` is the body field (absent or a
string); `ack` tells whether the publish callback is called without an error. -/
def postCommands (reg : Registry) (deviceId : String) (command : Option String)
    (ack : Bool) : HttpResult :=
  match command with
  | none => { reg := reg, published := [], resp := ⟨400, .error "Command is required."⟩ }
  | some cmd =>
    if !truthy (some cmd) then
      { reg := reg, published := [], resp := ⟨400, .error "Command is required."⟩ }
    else
      match findOne reg deviceId with
      | none => { reg := reg, published := [], resp := ⟨404, .error "Device not found."⟩ }
      | some _ =>
        let sent : List Publish :=
          [{ topic := "devices/" ++ deviceId ++ "/commands",
             payload := .obj [("command", .str cmd)], retain := false }]
        if !ack then
          { reg := reg, published := sent, resp := ⟨500, .error "Failed to send command."⟩ }
        else if cmd = "turn_off" then
          { reg := updateOne reg deviceId Status.off, published := sent,
            resp := ⟨200, .message ("Command \x27" ++ cmd ++ "\x27 sent to device " ++ deviceId
              ++ ". Status updated to \x27" ++ Status.off.text ++ "\x27.")⟩ }
        else if cmd = "turn_on" then
          { reg := updateOne reg deviceId Status.active, published := sent,
            resp := ⟨200, .message ("Command \x27" ++ cmd ++ "\x27 sent to device " ++ deviceId
              ++ ". Status updated to \x27" ++ Status.active.text ++ "\x27.")⟩ }
        else
          { reg := reg, published := sent,
            resp := ⟨200, .message ("Command \x27" ++ cmd ++ "\x27 sent to device " ++ deviceId
              ++ ".")⟩ }

/-! ## utils/mqttClient.js -/

/-- Method `topic.startsWith(prefix)`. -/
def startsWith (s pre : String) : Bool :=
  pre.data.isPrefixOf s.data

/-- Method `topic.endsWith(suffix)`. -/
def endsWith (s suf : String) : Bool :=
  suf.data.isSuffixOf s.data

/-- Splitting a list of characters at every occurrence of `sep`; the pieces may be empty
and there is always at least one. -/
def splitChars (sep : Char) : List Char → List (List Char)
  | [] => [[]]
  | c :: cs =>
    if c = sep then [] :: splitChars sep cs
    else
      match splitChars sep cs with
      | [] => [[c]]
      | piece :: pieces => (c :: piece) :: pieces

/-- Method `topic.split(sep)` for a one-character separator. -/
def split (s : String) (sep : Char) : List String :=
  (splitChars sep s.data).map String.mk

/-- Comparison `value === text` of a possibly undefined JSON value with a string. -/
def strictEqStr : Option JVal → String → Bool
  | some (.str s), text => s == text
  | _, _ => false

/-- What the broker message handler leaves behind: the registry, the publish calls it
issued, and whether the `async` handler ended by an exception that no `catch` took (its
promise rejects). -/
structure MsgResult where
  reg : Registry
  published : List Publish
  rejected : Bool

/-- The handler `mqttClient.on('message', async (topic, message) => ...)`.
`payload` is `none` when `JSON.parse(message.toString())` throws. -/
def onMessage (reg : Registry) (topic : String) (payload : Option JVal) : MsgResult :=
  match payload with
  | none => { reg := reg, published := [], rejected := true }
  | some msg =>
    if topic = "devices/register" then
      match msg with
      | .null =>
        -- destructuring `null` throws before the `try`
        { reg := reg, published := [], rejected := true }
      | _ =>
        let deviceId := msg.field "deviceId"
        let deviceType := msg.field "deviceType"
        match (filterKey deviceId).bind (findOne reg) with
        | some device =>
          match requiredString deviceType with
          | some ty =>
            { reg := saveExisting reg device.deviceId { device with deviceType := ty },
              published := [], rejected := false }
          | none =>
            -- `save()` rejects on validation; the error is caught and logged
            { reg := reg, published := [], rejected := false }
        | none =>
          match requiredString deviceId, requiredString deviceType with
          | some id, some ty =>
            { reg := saveNew reg (Device.new id ty), published := [], rejected := false }
          | _, _ => { reg := reg, published := [], rejected := false }
    else if topic = "events/high_energy_usage" then
      { reg := reg,
        published :=
          [{ topic := "devices/light_bulb_1/commands",
             payload := .obj [("command", .str "turn_off")], retain := false }],
        rejected := false }
    else if startsWith topic "devices/" && endsWith topic "/data" then
      match ((split topic '/')[1]?).bind (findOne reg) with
      | some device =>
        let withData : Device := { device with data := some msg }
        if device.deviceType = "light_bulb" then
          match msg with
          | .null =>
            -- reading `msg.status` throws inside the `try`: nothing is saved
            { reg := reg, published := [], rejected := false }
          | _ =>
            { reg := saveExisting reg device.deviceId
                { withData with
                  status := if strictEqStr (msg.field "status") "ON" then Status.active
                            else Status.off },
              published := [], rejected := false }
        else if device.deviceType = "energy_tracker" then
          { reg := saveExisting reg device.deviceId { withData with status := Status.active },
            published := [], rejected := false }
        else
          { reg := saveExisting reg device.deviceId withData,
            published := [], rejected := false }
      | none => { reg := reg, published := [], rejected := false }
    else { reg := reg, published := [], rejected := false }

/-- The topic on which device `deviceId` sends its telemetry. -/
def dataTopic (deviceId : String) : String :=
  "devices/" ++ deviceId ++ "/data"


/-! ## routes/events.js: the topic validator -/

/-- A literal of a pattern: the characters of `s` in sequence. -/
def literal (s : String) : RegularExpression Char :=
  s.data.foldr (fun c r => RegularExpression.char c * r) 1

/-- The characters of a class range `lo-hi`. -/
def charRange (lo hi : Char) : List Char :=
  (List.range (hi.toNat - lo.toNat + 1)).map (fun i => Char.ofNat (lo.toNat + i))

/-- A character class `[...]`: any one of the listed characters. -/
def charClass (cs : List Char) : RegularExpression Char :=
  cs.foldr (fun c r => RegularExpression.char c + r) 0

/-- The quantifier `r+`. -/
def oneOrMore (r : RegularExpression Char) : RegularExpression Char :=
  r * RegularExpression.star r

/-- The characters of the class `[a-zA-Z0-9_]`. -/
def wordChars : List Char :=
  charRange 'a' 'z' ++ charRange 'A' 'Z' ++ charRange '0' '9' ++ ['_']

/-- The pattern `/^(devices|events)\/[a-zA-Z0-9_]+(\/[a-zA-Z0-9_]+)*$/` of the publish
endpoint, between its anchors. -/
def validTopicPattern : RegularExpression Char :=
  (literal "devices" + literal "events") *
    (RegularExpression.char '/' *
      (oneOrMore (charClass wordChars) *
        RegularExpression.star (RegularExpression.char '/' * oneOrMore (charClass wordChars))))

/-- The check `validTopicPattern.test(topic)`: with both anchors the whole topic has to
match. -/
def validTopic (topic : String) : Bool :=
  validTopicPattern.rmatch topic.data

/-- A character of `[A-Za-z0-9_]`, by its ranges. -/
def IsTopicChar (c : Char) : Prop :=
  ('A' ≤ c ∧ c ≤ 'Z') ∨ ('a' ≤ c ∧ c ≤ 'z') ∨ ('0' ≤ c ∧ c ≤ '9') ∨ c = '_'

/-- The form of a topic in the words of the specification: the root `devices` or `events`
followed by one or more segments, each a `/` followed by one or more characters of
`[A-Za-z0-9_]`, and nothing else. -/
def TopicForm (s : List Char) : Prop :=
  ∃ (root : List Char) (segs : List (List Char)),
    (root = "devices".data ∨ root = "events".data) ∧ segs ≠ [] ∧
    (∀ seg ∈ segs, seg ≠ [] ∧ ∀ c ∈ seg, IsTopicChar c) ∧
    s = root ++ (segs.map (fun seg => '/' :: seg)).flatten


/-! ## routes/events.js: the publish endpoint -/

/-- JavaScript truthiness of a body field holding a JSON value: `!x` holds for an absent
field, `null`, `false`, `0` and the empty string; every array and object is truthy. -/
def jsTruthy : Option JVal → Bool
  | none => false
  | some .null => false
  | some (.bool b) => b
  | some (.num n) => n != 0
  | some (.str s) => s != ""
  | some (.arr _) => true
  | some (.obj _) => true

/-- Handler `router.post('/publish')`. `topic` is the body field (absent or a string),
`message` the body field of any JSON kind; `ack` tells whether the publish callback is
called without an error. -/
def postPublish (reg : Registry) (topic : Option String) (message : Option JVal)
    (ack : Bool) : HttpResult :=
  match topic, message with
  | some t, some m =>
    if !truthy (some t) || !jsTruthy (some m) then
      { reg := reg, published := [], resp := ⟨400, .error "topic and message are required."⟩ }
    else if !validTopic t then
      { reg := reg, published := [], resp := ⟨400, .error "Invalid topic format."⟩ }
    else
      let topicParts := split t '/'
      let deviceId : Option String :=
        if topicParts[0]? = some "devices" && truthy topicParts[1]? then topicParts[1]?
        else none
      let publish : HttpResult :=
        { reg := reg,
          published := [{ topic := t, payload := m, retain := false }],
          resp := if ack then ⟨200, .message "Event published successfully."⟩
                  else ⟨500, .error "Failed to publish event."⟩ }
      match deviceId with
      | some id =>
        if truthy (some id) then
          match findOne reg id with
          | none =>
            { reg := reg, published := [],
              resp := ⟨400, .error ("Device " ++ id ++ " not registered.")⟩ }
          | some _ => publish
        else publish
      | none => publish
  | _, _ =>
    { reg := reg, published := [], resp := ⟨400, .error "topic and message are required."⟩ }

/-! ## routes/events.js: the subscribe endpoint -/

/-- An event written to an observer's stream: the topic and the payload text of
`JSON.stringify({ topic, message: message.toString() })`. -/
structure SseEvent where
  topic : String
  message : String
  deriving DecidableEq, Repr

/-- The closure `handleMessage` of an observer opened with `topicsArray`: the events it
writes for one inbound message. -/
def handleMessage (topicsArray : List String) (topic message : String) : List SseEvent :=
  if topicsArray.contains topic then [{ topic := topic, message := message }] else []

/-- An open observer: its request handle, the `topicsArray` of its closure and the events
written to its stream so far, oldest first. -/
structure Observer where
  handle : Nat
  topicsArray : List String
  sent : List SseEvent
  deriving DecidableEq, Repr

/-- A call of the subscribe endpoint on the shared broker client:
`mqttClient.subscribe(topics, { qos: 1 }, ...)` or `mqttClient.unsubscribe(topics, ...)`. -/
inductive BrokerCall where
  | subscribe (topics : List String)
  | unsubscribe (topics : List String)
  deriving DecidableEq, Repr

/-- The state the subscribe endpoint works on: the observers whose `handleMessage` is
attached to the client, and the subscribe and unsubscribe calls the endpoint has issued on
the client, oldest first. -/
structure Relay where
  observers : List Observer
  calls : List BrokerCall
  deriving DecidableEq, Repr

/-- Handler `router.get('/subscribe')` up to the attachment of the listener, for the
request `handle`; `topics` is the query parameter (absent or a string). Without topics the
answer is 400 and nothing is opened. -/
def getSubscribe (relay : Relay) (handle : Nat) (topics : Option String) : Relay :=
  match topics with
  | none => relay
  | some ts =>
    if !truthy (some ts) then relay
    else
      let topicsArray := split ts ','
      { observers := relay.observers ++ [{ handle := handle, topicsArray := topicsArray,
                                           sent := [] }],
        calls := relay.calls ++ [BrokerCall.subscribe topicsArray] }

/-- The listener `req.on('close', ...)` of the request `handle`: its `handleMessage` is
removed from the client and its `topicsArray` is unsubscribed. -/
def onClose (relay : Relay) (handle : Nat) : Relay :=
  match relay.observers.find? (fun o => o.handle = handle) with
  | none => relay
  | some o =>
    { observers := relay.observers.filter (fun p => p.handle != handle),
      calls := relay.calls ++ [BrokerCall.unsubscribe o.topicsArray] }

/-- One `message` event of the client: every attached `handleMessage` runs on it. -/
def relayMessage (relay : Relay) (topic message : String) : Relay :=
  { relay with
    observers := relay.observers.map
      (fun o => { o with sent := o.sent ++ handleMessage o.topicsArray topic message }) }

/-- A run of `message` events of the client, in arrival order. -/
def relayMessages (relay : Relay) : List (String × String) → Relay
  | [] => relay
  | (topic, message) :: rest => relayMessages (relayMessage relay topic message) rest

/-! ## The broker's side of the client's subscriptions

The broker is not part of the repository. It is modelled only for calls whose topic filters
are of a form every MQTT broker accepts; what it does on any other filter (an empty filter,
for one, makes it close the connection) is left undetermined. -/

/-- One level of a topic filter of known form: the wildcard `+`, the wildcard `#` in the
last level, or characters of `[a-zA-Z0-9_]` only (none at all in an empty level). -/
def filterLevel (isLast : Bool) (level : List Char) : Bool :=
  level == ['+'] || (isLast && level == ['#']) || level.all (fun c => wordChars.contains c)

/-- The levels of a topic filter are all of known form. -/
def filterLevels : List (List Char) → Bool
  | [] => true
  | [level] => filterLevel true level
  | level :: rest => filterLevel false level && filterLevels rest

/-- A topic filter of known form: not empty, at most 65535 characters, every level of
known form. -/
def knownFilter (t : String) : Bool :=
  t.data != [] && decide (t.data.length ≤ 65535) && filterLevels (splitChars '/' t.data)

/-- The filters held after a SUBSCRIBE of `topics`: each of them is held (a filter held
already is not held twice). -/
def brokerSubscribe (subscribed topics : List String) : List String :=
  topics.foldl (fun acc t => if acc.contains t then acc else acc ++ [t]) subscribed

/-- The filters held after an UNSUBSCRIBE of `topics`: none of them is held. -/
def brokerUnsubscribe (subscribed topics : List String) : List String :=
  subscribed.filter (fun t => !topics.contains t)

/-- The filters the broker holds for the client after one call, `none` when they are not
determined: before the call already, or because a filter of the call is not of known
form. -/
def brokerStep (held : Option (List String)) : BrokerCall → Option (List String)
  | .subscribe topics =>
    if topics.all knownFilter then held.map (fun s => brokerSubscribe s topics) else none
  | .unsubscribe topics =>
    if topics.all knownFilter then held.map (fun s => brokerUnsubscribe s topics) else none

/-- The filters the broker holds for the client after a run of calls, starting from the
filters `initial`. -/
def brokerHeld (initial : List String) (calls : List BrokerCall) : Option (List String) :=
  calls.foldl brokerStep (some initial)

/-! ## utils/mqttClient.js: the connect handler -/

/-- One call of `mqttClient.subscribe(topic, { qos }, callback)`. -/
structure Subscribe where
  topic : String
  qos : Nat
  deriving DecidableEq, Repr

/-- The handler `mqttClient.on('connect', ...)`: the subscribe calls of one run. -/
def onConnect : List Subscribe :=
  [{ topic := "devices/register", qos := 1 },
   { topic := "events/high_energy_usage", qos := 1 },
   { topic := "devices/+/data", qos := 1 }]

/-- The bridge of `setupMqttClient`: the registry, and the subscribe and publish calls
issued so far. -/
structure Bridge where
  reg : Registry
  subscribes : List Subscribe
  published : List Publish
  rejections : Nat

/-- An event of the client: a (re)connection, or an inbound message. -/
inductive ClientEvent where
  | connect
  | message (topic : String) (payload : Option JVal)

/-- The handlers installed by `setupMqttClient`, run on one event of the client. -/
def bridgeStep (b : Bridge) : ClientEvent → Bridge
  | .connect => { b with subscribes := b.subscribes ++ onConnect }
  | .message topic payload =>
    let r := onMessage b.reg topic payload
    { b with reg := r.reg, published := b.published ++ r.published,
             rejections := b.rejections + (if r.rejected then 1 else 0) }

/-- The handlers run on a sequence of events of the client. -/
def bridgeRun (b : Bridge) : List ClientEvent → Bridge
  | [] => b
  | e :: rest => bridgeRun (bridgeStep b e) rest

/-! ## Records used in the instances -/

/-- A light bulb `lamp` that is on, with its last telemetry stored. -/
def lampOn : Device :=
  { deviceId := "lamp", deviceType := "light_bulb",
    data := some (.obj [("status", .str "ON")]), status := Status.active, commands := [] }

/-- A smart switch `sw` that was turned off by a command. -/
def switchOff : Device :=
  { deviceId := "sw", deviceType := "smart_switch", data := none,
    status := Status.off, commands := [] }


/-- An energy tracker `a` that is off. -/
def trackerA : Device :=
  { deviceId := "a", deviceType := "energy_tracker", data := none,
    status := Status.off, commands := [] }

/-- A smart switch registered under the id `data`. -/
def switchNamedData : Device :=
  { deviceId := "data", deviceType := "smart_switch", data := none,
    status := Status.off, commands := [] }

end SmartHome

namespace SmartHome

/-! ## Store lemmas -/

theorem findOne_deviceId {reg : Registry} {deviceId : String} {d : Device}
    (h : findOne reg deviceId = some d) : d.deviceId = deviceId := by
  induction reg with
  | nil => simp [findOne] at h
  | cons e rest ih =>
    unfold findOne at h
    split at h
    · cases h; assumption
    · exact ih h

theorem findOne_updateOne (reg : Registry) (deviceId : String) (status : Status) :
    findOne (updateOne reg deviceId status) deviceId
      = (findOne reg deviceId).map (fun d => { d with status := status }) := by
  induction reg with
  | nil => simp [findOne, updateOne]
  | cons e rest ih =>
    by_cases he : e.deviceId = deviceId
    · simp [findOne, updateOne, he]
    · simp [findOne, updateOne, he, ih]

theorem findOne_updateOne_other (reg : Registry) (deviceId other : String) (status : Status)
    (hne : other ≠ deviceId) :
    findOne (updateOne reg deviceId status) other = findOne reg other := by
  induction reg with
  | nil => simp [findOne, updateOne]
  | cons e rest ih =>
    by_cases he : e.deviceId = deviceId
    · have : e.deviceId ≠ other := fun h => hne (h ▸ he)
      simp [findOne, updateOne, he, Ne.symm hne]
    · by_cases ho : e.deviceId = other
      · simp [findOne, updateOne, he, ho]
        simp [findOne, hne, ho]
      · simp [findOne, updateOne, he, ho, ih]

theorem length_updateOne (reg : Registry) (deviceId : String) (status : Status) :
    (updateOne reg deviceId status).length = reg.length := by
  induction reg with
  | nil => simp [updateOne]
  | cons e rest ih =>
    by_cases he : e.deviceId = deviceId <;> simp [updateOne, he, ih]

theorem findOne_saveExisting (reg : Registry) (deviceId : String) (doc : Device)
    (hdoc : doc.deviceId = deviceId) (hex : (findOne reg deviceId).isSome) :
    findOne (saveExisting reg deviceId doc) deviceId = some doc := by
  induction reg with
  | nil => simp [findOne] at hex
  | cons e rest ih =>
    by_cases he : e.deviceId = deviceId
    · simp [findOne, saveExisting, he, hdoc]
    · simp only [findOne, he, if_false] at hex
      simp [findOne, saveExisting, he, ih hex]

theorem findOne_saveExisting_other (reg : Registry) (deviceId other : String) (doc : Device)
    (hdoc : doc.deviceId = deviceId) (hne : other ≠ deviceId) :
    findOne (saveExisting reg deviceId doc) other = findOne reg other := by
  induction reg with
  | nil => simp [findOne, saveExisting]
  | cons e rest ih =>
    by_cases he : e.deviceId = deviceId
    · have h1 : ¬ doc.deviceId = other := fun h => hne (h ▸ hdoc)
      have h2 : ¬ e.deviceId = other := fun h => hne (h ▸ he)
      simp [findOne, saveExisting, he, h1, Ne.symm hne]
    · by_cases ho : e.deviceId = other
      · simp [findOne, saveExisting, he, ho]
        simp [findOne, hne, ho]
      · simp [findOne, saveExisting, he, ho, ih]

theorem length_saveExisting (reg : Registry) (deviceId : String) (doc : Device) :
    (saveExisting reg deviceId doc).length = reg.length := by
  induction reg with
  | nil => simp [saveExisting]
  | cons e rest ih =>
    by_cases he : e.deviceId = deviceId <;> simp [saveExisting, he, ih]

theorem findOne_saveNew (reg : Registry) (doc : Device)
    (hnew : findOne reg doc.deviceId = none) :
    findOne (saveNew reg doc) doc.deviceId = some doc := by
  induction reg with
  | nil => simp [findOne, saveNew]
  | cons e rest ih =>
    by_cases he : e.deviceId = doc.deviceId
    · simp [findOne, he] at hnew
    · simp only [findOne, he, if_false] at hnew
      have := ih hnew
      simp only [saveNew] at this
      simp [findOne, saveNew, he, this]

theorem truthy_some (s : String) : truthy (some s) = true ↔ s ≠ "" := by
  simp [truthy]

/-! ## Command endpoint -/

/-- C1: for a registered device and a non-empty command whose publish is acknowledged, the
command endpoint answers 200; `turn_on` leaves the record with status `active` and
`turn_off` with status `off`, every other field of the record as before; any other command
leaves the whole registry as it was. -/
theorem postCommands_status_from_command (reg : Registry) (deviceId cmd : String)
    (d : Device) (hd : findOne reg deviceId = some d) (hc : cmd ≠ "") :
    (postCommands reg deviceId (some cmd) true).resp.code = 200 ∧
    (cmd = "turn_on" →
      findOne (postCommands reg deviceId (some cmd) true).reg deviceId
        = some { d with status := Status.active }) ∧
    (cmd = "turn_off" →
      findOne (postCommands reg deviceId (some cmd) true).reg deviceId
        = some { d with status := Status.off }) ∧
    (cmd ≠ "turn_on" → cmd ≠ "turn_off" →
      (postCommands reg deviceId (some cmd) true).reg = reg) := by
  have ht : truthy (some cmd) = true := (truthy_some cmd).2 hc
  by_cases hoff : cmd = "turn_off"
  · subst hoff
    simp [postCommands, truthy, hd, findOne_updateOne]
  · by_cases hon : cmd = "turn_on"
    · subst hon
      simp [postCommands, truthy, hd, findOne_updateOne]
    · simp [postCommands, ht, hd, hoff, hon]

/-- Instance of C1: `turn_off` sent to the freshly registered light bulb `d1`. -/
theorem postCommands_status_from_command_witness :
    (postCommands [Device.new "d1" "light_bulb"] "d1" (some "turn_off") true).resp.code = 200 ∧
    ("turn_off" = "turn_on" →
      findOne (postCommands [Device.new "d1" "light_bulb"] "d1" (some "turn_off") true).reg "d1"
        = some { Device.new "d1" "light_bulb" with status := Status.active }) ∧
    ("turn_off" = "turn_off" →
      findOne (postCommands [Device.new "d1" "light_bulb"] "d1" (some "turn_off") true).reg "d1"
        = some { Device.new "d1" "light_bulb" with status := Status.off }) ∧
    ("turn_off" ≠ "turn_on" → "turn_off" ≠ "turn_off" →
      (postCommands [Device.new "d1" "light_bulb"] "d1" (some "turn_off") true).reg
        = [Device.new "d1" "light_bulb"]) :=
  postCommands_status_from_command [Device.new "d1" "light_bulb"] "d1" "turn_off"
    (Device.new "d1" "light_bulb") (by simp [findOne, Device.new]) (by decide)

/-! ## Registration endpoint -/

/-- C4: registering over HTTP a non-empty deviceId that is not in the registry, with an
allowed deviceType, answers 201, and `findOne` of that id then returns a record with that
id, that type and status `active`. -/
theorem postRegister_then_find (reg : Registry) (deviceId deviceType : String)
    (hid : deviceId ≠ "") (hnew : findOne reg deviceId = none)
    (hty : deviceType ∈ allowedDeviceTypes) :
    (postRegister reg (some deviceId) (some deviceType)).resp.code = 201 ∧
    ∃ d, findOne (postRegister reg (some deviceId) (some deviceType)).reg deviceId = some d ∧
      d.deviceId = deviceId ∧ d.deviceType = deviceType ∧ d.status = Status.active := by
  have hty2 : deviceType ≠ "" := by
    rintro rfl
    simp [allowedDeviceTypes] at hty
  have hc : allowedDeviceTypes.contains deviceType = true := by
    simpa using hty
  have hfind := findOne_saveNew reg (Device.new deviceId deviceType) hnew
  have h1 : (deviceId != "") = true := by simpa using hid
  have h2 : (deviceType != "") = true := by simpa using hty2
  simp only [postRegister, truthy, h1, h2, Bool.not_true, Bool.or_self, Bool.false_eq_true,
    if_false, hc, hnew]
  exact ⟨trivial, Device.new deviceId deviceType, hfind, rfl, rfl, rfl⟩

/-- Instance of C4: `test_device_1` registered as a light bulb in the empty registry. -/
theorem postRegister_then_find_witness :
    (postRegister [] (some "test_device_1") (some "light_bulb")).resp.code = 201 ∧
    ∃ d, findOne (postRegister [] (some "test_device_1") (some "light_bulb")).reg
        "test_device_1" = some d ∧
      d.deviceId = "test_device_1" ∧ d.deviceType = "light_bulb" ∧ d.status = Status.active :=
  postRegister_then_find [] "test_device_1" "light_bulb" (by decide) rfl (by decide)

/-- C5: the registration endpoint answers 400, leaves the registry as it was and issues no
publish when deviceId or deviceType is missing or empty, when deviceType is outside the
allowed set, and when a record with that deviceId exists; a duplicate of otherwise valid
fields gets the error `Device already exists.`; in every other case the answer is 201. -/
theorem postRegister_rejects_or_creates (reg : Registry) (deviceId deviceType : Option String) :
    ((deviceId = none ∨ deviceId = some "" ∨ deviceType = none ∨ deviceType = some "" ∨
        (∃ ty, deviceType = some ty ∧ ty ∉ allowedDeviceTypes) ∨
        (∃ id d, deviceId = some id ∧ findOne reg id = some d)) →
      (postRegister reg deviceId deviceType).resp.code = 400 ∧
      (postRegister reg deviceId deviceType).reg = reg ∧
      (postRegister reg deviceId deviceType).published = []) ∧
    (∀ id ty d, deviceId = some id → id ≠ "" → deviceType = some ty →
      ty ∈ allowedDeviceTypes → findOne reg id = some d →
      (postRegister reg deviceId deviceType).resp.body = Body.error "Device already exists.") ∧
    (¬ (deviceId = none ∨ deviceId = some "" ∨ deviceType = none ∨ deviceType = some "" ∨
        (∃ ty, deviceType = some ty ∧ ty ∉ allowedDeviceTypes) ∨
        (∃ id d, deviceId = some id ∧ findOne reg id = some d)) →
      (postRegister reg deviceId deviceType).resp.code = 201) := by
  cases deviceId with
  | none => cases deviceType <;> simp [postRegister]
  | some id =>
    cases deviceType with
    | none => simp [postRegister]
    | some ty =>
      by_cases hid : id = ""
      · simp [postRegister, truthy, hid]
        intros; subst_vars; simp_all
      · by_cases hty : ty = ""
        · simp [postRegister, truthy, hty]
          intro a b c _ _ hb hmem
          subst hb
          simp [allowedDeviceTypes] at hmem
        · have h1 : (id != "") = true := by simpa using hid
          have h2 : (ty != "") = true := by simpa using hty
          by_cases hal : ty ∈ allowedDeviceTypes
          · have hc : allowedDeviceTypes.contains ty = true := by simpa using hal
            cases hf : findOne reg id with
            | none =>
              simp [postRegister, truthy, h1, h2, hc, hf, hid, hty, hal]
              intros; subst_vars; simp_all
            | some d => simp [postRegister, truthy, h1, h2, hc, hf, hid, hty, hal]
          · have hc : allowedDeviceTypes.contains ty = false := by simpa using hal
            simp [postRegister, truthy, h1, h2, hc, hid, hty, hal]
            intros; subst_vars; simp_all

/-- Instance of C5: a second registration of `test_device_1` is refused and changes
nothing. -/
theorem postRegister_rejects_or_creates_witness :
    (postRegister [Device.new "test_device_1" "light_bulb"] (some "test_device_1")
        (some "smart_switch")).resp.code = 400 ∧
    (postRegister [Device.new "test_device_1" "light_bulb"] (some "test_device_1")
        (some "smart_switch")).reg = [Device.new "test_device_1" "light_bulb"] ∧
    (postRegister [Device.new "test_device_1" "light_bulb"] (some "test_device_1")
        (some "smart_switch")).published = [] :=
  (postRegister_rejects_or_creates [Device.new "test_device_1" "light_bulb"]
      (some "test_device_1") (some "smart_switch")).1
    (Or.inr (Or.inr (Or.inr (Or.inr (Or.inr
      ⟨"test_device_1", Device.new "test_device_1" "light_bulb", rfl,
        by simp [findOne, Device.new]⟩)))))

/-! ## Routing of a telemetry topic -/

theorem splitChars_segment (seg rest : List Char) (h : '/' ∉ seg) :
    splitChars '/' (seg ++ '/' :: rest) = seg :: splitChars '/' rest := by
  induction seg with
  | nil => simp [splitChars]
  | cons c cs ih =>
    have hc : c ≠ '/' := fun e => h (by simp [e])
    have hcs : '/' ∉ cs := fun e => h (by simp [e])
    simp [splitChars, hc, ih hcs]

theorem dataTopic_data (deviceId : String) :
    (dataTopic deviceId).data
      = "devices".data ++ '/' :: (deviceId.data ++ '/' :: "data".data) := by
  simp [dataTopic, String.data_append]

theorem dataTopic_ne_register (deviceId : String) : dataTopic deviceId ≠ "devices/register" := by
  intro h
  have h2 := congrArg String.data h
  rw [dataTopic_data] at h2
  have h3 : deviceId.data ++ '/' :: "data".data = "register".data := by
    simpa using h2
  have h4 : '/' ∈ "register".data := by
    rw [← h3]; simp
  exact absurd h4 (by decide)

theorem dataTopic_ne_highEnergy (deviceId : String) :
    dataTopic deviceId ≠ "events/high_energy_usage" := by
  intro h
  have h2 := congrArg String.data h
  rw [dataTopic_data] at h2
  simp at h2

theorem dataTopic_startsWith (deviceId : String) :
    startsWith (dataTopic deviceId) "devices/" = true := by
  unfold startsWith
  rw [ List.isPrefixOf_iff_prefix, dataTopic_data]
  exact ⟨deviceId.data ++ '/' :: "data".data, by simp⟩

theorem dataTopic_endsWith (deviceId : String) :
    endsWith (dataTopic deviceId) "/data" = true := by
  unfold endsWith
  rw [List.isSuffixOf_iff_suffix, dataTopic_data]
  exact ⟨"devices".data ++ '/' :: deviceId.data, by simp⟩

theorem dataTopic_split (deviceId : String) (h : '/' ∉ deviceId.data) :
    (split (dataTopic deviceId) '/')[1]? = some deviceId := by
  unfold split
  rw [dataTopic_data, splitChars_segment _ _ (by decide), splitChars_segment _ _ h]
  simp

/-! ## Telemetry on `devices/<id>/data` -/

/-- The data branch on the topic of a device id that is one topic level: the handler looks
up exactly that id. -/
theorem onMessage_dataTopic_unregistered (reg : Registry) (deviceId : String) (msg : JVal)
    (hseg : '/' ∉ deviceId.data) (hnone : findOne reg deviceId = none) :
    onMessage reg (dataTopic deviceId) (some msg)
      = { reg := reg, published := [], rejected := false } := by
  simp [onMessage, dataTopic_ne_register, dataTopic_ne_highEnergy, dataTopic_startsWith,
    dataTopic_endsWith, dataTopic_split deviceId hseg, hnone]

/-- Telemetry of a registered light bulb with a payload other than `null`: the payload is
assigned to the record's data and the status follows the payload's `status` field. -/
theorem onMessage_lightBulb (reg : Registry) (deviceId : String) (d : Device) (msg : JVal)
    (hseg : '/' ∉ deviceId.data) (hd : findOne reg deviceId = some d)
    (hty : d.deviceType = "light_bulb") (hmsg : msg ≠ JVal.null) :
    findOne (onMessage reg (dataTopic deviceId) (some msg)).reg deviceId
      = some { d with
          data := some msg,
          status := if strictEqStr (msg.field "status") "ON" then Status.active
                    else Status.off } := by
  have hid := findOne_deviceId hd
  have hsome : (findOne reg deviceId).isSome := by simp [hd]
  cases msg with
  | null => exact absurd rfl hmsg
  | _ =>
    simp only [onMessage, dataTopic_ne_register, dataTopic_ne_highEnergy, dataTopic_startsWith,
      dataTopic_endsWith, dataTopic_split deviceId hseg, hd, hty, if_false, if_true,
      Bool.and_self, Option.some_bind]
    rw [hid]
    exact findOne_saveExisting reg deviceId _ rfl hsome

/-- Telemetry of a registered device that is not a light bulb: the payload is assigned to
the record's data; the status becomes `active` for an `energy_tracker` and stays as it was
for any other type. -/
theorem onMessage_nonBulb (reg : Registry) (deviceId : String) (d : Device) (msg : JVal)
    (hseg : '/' ∉ deviceId.data) (hd : findOne reg deviceId = some d)
    (hty : d.deviceType ≠ "light_bulb") :
    findOne (onMessage reg (dataTopic deviceId) (some msg)).reg deviceId
      = some { d with
          data := some msg,
          status := if d.deviceType = "energy_tracker" then Status.active else d.status } := by
  have hid := findOne_deviceId hd
  have hsome : (findOne reg deviceId).isSome := by simp [hd]
  by_cases he : d.deviceType = "energy_tracker"
  · simp only [onMessage, dataTopic_ne_register, dataTopic_ne_highEnergy, dataTopic_startsWith,
      dataTopic_endsWith, dataTopic_split deviceId hseg, hd, hty, he, if_false, if_true,
      Bool.and_self, Option.some_bind]
    rw [hid]
    exact findOne_saveExisting reg deviceId _ rfl hsome
  · simp only [onMessage, dataTopic_ne_register, dataTopic_ne_highEnergy, dataTopic_startsWith,
      dataTopic_endsWith, dataTopic_split deviceId hseg, hd, hty, he, if_false, if_true,
      Bool.and_self, Option.some_bind]
    rw [hid]
    exact findOne_saveExisting reg deviceId _ rfl hsome

/-- C2: the payload `null` delivered on `devices/lamp/data` for the registered light bulb
`lamp` (status `active`) leaves its status `active`, where the claim asks for `off`:
reading `msg.status` throws and the handler saves nothing. -/
theorem onMessage_lightBulb_null_keeps_status :
    findOne [lampOn] "lamp" = some lampOn ∧
    lampOn.deviceType = "light_bulb" ∧
    (findOne (onMessage [lampOn] (dataTopic "lamp") (some JVal.null)).reg "lamp").map
        (fun d => d.status) = some Status.active ∧
    (findOne (onMessage [lampOn] (dataTopic "lamp") (some JVal.null)).reg "lamp").map
        (fun d => d.status) ≠ some Status.off ∧
    (onMessage [lampOn] (dataTopic "lamp") (some JVal.null)).rejected = false := by
  refine ⟨rfl, rfl, ?_, ?_, ?_⟩ <;> decide

/-- C3, as stated, fails: telemetry `{}` of the registered `smart_switch` device `sw`, whose
status is `off`, leaves the status `off`. -/
theorem onMessage_smartSwitch_stays_off :
    findOne [switchOff] "sw" = some switchOff ∧
    switchOff.deviceType ≠ "light_bulb" ∧
    (findOne (onMessage [switchOff] (dataTopic "sw") (some (JVal.obj []))).reg "sw").map
        (fun d => d.status) = some Status.off ∧
    (findOne (onMessage [switchOff] (dataTopic "sw") (some (JVal.obj []))).reg "sw").map
        (fun d => d.status) ≠ some Status.active := by
  refine ⟨rfl, by decide, by decide, by decide⟩

/-- C3, amended: for a registered device (its id one topic level) and a decodable payload
delivered on `devices/<id>/data`, the status afterwards is `active` when the type is
`energy_tracker`, whatever it was before, and is the status it had before when the type is
neither `light_bulb` nor `energy_tracker`. -/
theorem onMessage_nonBulb_status (reg : Registry) (deviceId : String) (d : Device)
    (msg : JVal) (hseg : '/' ∉ deviceId.data) (hd : findOne reg deviceId = some d)
    (hty : d.deviceType ≠ "light_bulb") :
    (d.deviceType = "energy_tracker" →
      (findOne (onMessage reg (dataTopic deviceId) (some msg)).reg deviceId).map
        (fun e => e.status) = some Status.active) ∧
    (d.deviceType ≠ "energy_tracker" →
      (findOne (onMessage reg (dataTopic deviceId) (some msg)).reg deviceId).map
        (fun e => e.status) = some d.status) := by
  rw [onMessage_nonBulb reg deviceId d msg hseg hd hty]
  constructor
  · intro he; simp [he]
  · intro he; simp [he]

/-- Instance of amended C3: an energy tracker that is `off` becomes `active` on telemetry. -/
theorem onMessage_nonBulb_status_witness :
    ("energy_tracker" = "energy_tracker" →
      (findOne (onMessage
          [{ deviceId := "et", deviceType := "energy_tracker", data := none,
             status := Status.off, commands := [] }]
          (dataTopic "et") (some (JVal.obj [("energyUsage", JVal.num 1200)]))).reg "et").map
        (fun e => e.status) = some Status.active) ∧
    ("energy_tracker" ≠ "energy_tracker" →
      (findOne (onMessage
          [{ deviceId := "et", deviceType := "energy_tracker", data := none,
             status := Status.off, commands := [] }]
          (dataTopic "et") (some (JVal.obj [("energyUsage", JVal.num 1200)]))).reg "et").map
        (fun e => e.status) = some Status.off) :=
  onMessage_nonBulb_status
    [{ deviceId := "et", deviceType := "energy_tracker", data := none,
       status := Status.off, commands := [] }]
    "et"
    { deviceId := "et", deviceType := "energy_tracker", data := none,
      status := Status.off, commands := [] }
    (JVal.obj [("energyUsage", JVal.num 1200)]) (by decide) rfl (by decide)

/-- For a deviceId without `/` (one topic level) that is not in the registry, a data
message on `devices/<deviceId>/data` with any decodable payload leaves the registry exactly
as it was; a command request for a deviceId that is not in the registry, with any command,
does so for every deviceId. -/
theorem unregistered_device_no_effect (reg : Registry) (deviceId : String)
    (hseg : '/' ∉ deviceId.data) (hnone : findOne reg deviceId = none) :
    (∀ msg : JVal, (onMessage reg (dataTopic deviceId) (some msg)).reg = reg) ∧
    (∀ (command : Option String) (ack : Bool),
      (postCommands reg deviceId command ack).reg = reg) := by
  constructor
  · intro msg
    rw [onMessage_dataTopic_unregistered reg deviceId msg hseg hnone]
  · intro command ack
    cases command with
    | none => rfl
    | some cmd =>
      by_cases hc : truthy (some cmd) = true <;> simp [postCommands, hc, hnone]

/-- Telemetry and a command for `nonexistent_device` while only `lamp` is registered. -/
theorem unregistered_device_no_effect_witness :
    (∀ msg : JVal,
      (onMessage [lampOn] (dataTopic "nonexistent_device") (some msg)).reg = [lampOn]) ∧
    (∀ (command : Option String) (ack : Bool),
      (postCommands [lampOn] "nonexistent_device" command ack).reg = [lampOn]) :=
  unregistered_device_no_effect [lampOn] "nonexistent_device" (by decide) rfl

/-- C8: the deviceId `a/b` is not in the registry, and a data message on
`devices/a/b/data` (the topic `devices/<deviceId>/data` of that deviceId) does not leave
the registry as it was: the handler takes the second level `a` as the device and rewrites
the record of the registered device `a` (data stored, status `off` to `active`). A command
request for `a/b` leaves the registry as it was. -/
theorem onMessage_unregistered_slash_id :
    findOne [trackerA] "a/b" = none ∧
    dataTopic "a/b" = "devices/a/b/data" ∧
    (onMessage [trackerA] (dataTopic "a/b") (some (.obj [("energyUsage", .num 5)]))).reg.map
        (fun d => (d.deviceId, d.status, d.data.isSome))
      = [("a", Status.active, true)] ∧
    [trackerA].map (fun d => (d.deviceId, d.status, d.data.isSome))
      = [("a", Status.off, false)] ∧
    (postCommands [trackerA] "a/b" (some "turn_on") true).reg.map
        (fun d => (d.deviceId, d.status, d.data.isSome))
      = [("a", Status.off, false)] := by
  refine ⟨rfl, by decide, by decide, by decide, by decide⟩

/-- C9: the payload `null` delivered on `devices/lamp/data` for the registered light bulb
`lamp` is not stored: the record keeps its earlier data and `GET data` still returns it,
where the claim asks for the data to equal the payload. -/
theorem onMessage_lightBulb_null_not_stored :
    findOne [lampOn] "lamp" = some lampOn ∧
    (onMessage [lampOn] (dataTopic "lamp") (some JVal.null)).reg = [lampOn] ∧
    getData (onMessage [lampOn] (dataTopic "lamp") (some JVal.null)).reg "lamp"
      = ⟨200, Body.data (some (JVal.obj [("status", JVal.str "ON")]))⟩ := by
  refine ⟨rfl, rfl, rfl⟩

/-! ## Registration over the broker -/

/-- C6, as stated, fails: a `devices/register` message for the registered `lamp` whose
object payload has deviceType `""`, or no deviceType at all, does not set the record's
deviceType to the message's: the save is refused by the `required` validator and the
record keeps the type `light_bulb`. -/
theorem onMessage_register_without_type_keeps_type :
    filterKey ((JVal.obj [("deviceId", .str "lamp"), ("deviceType", .str "")]).field
      "deviceId") = some "lamp" ∧
    findOne [lampOn] "lamp" = some lampOn ∧
    (findOne (onMessage [lampOn] "devices/register"
        (some (.obj [("deviceId", .str "lamp"), ("deviceType", .str "")]))).reg "lamp").map
      (fun d => d.deviceType) = some "light_bulb" ∧
    (findOne (onMessage [lampOn] "devices/register"
        (some (.obj [("deviceId", .str "lamp"), ("deviceType", .str "")]))).reg "lamp").map
      (fun d => d.deviceType) ≠ some "" ∧
    (onMessage [lampOn] "devices/register"
        (some (.obj [("deviceId", .str "lamp"), ("deviceType", .str "")]))).rejected = false ∧
    (findOne (onMessage [lampOn] "devices/register"
        (some (.obj [("deviceId", .str "lamp")]))).reg "lamp").map
      (fun d => d.deviceType) = some "light_bulb" := by
  refine ⟨rfl, rfl, ?_, ?_, ?_, ?_⟩ <;> decide

/-- C6, amended: for a `devices/register` message carrying an object payload whose deviceId
is already registered and whose deviceType is a non-empty string, the broker registration
path does not fail: the record's deviceType becomes the message's deviceType, its deviceId,
status, data and commands stay as they were, the number of records does not change, every
other deviceId still finds the record it found before, and nothing is published. -/
theorem onMessage_register_existing (reg : Registry) (fields : List (String × JVal))
    (deviceId deviceType : String) (d : Device)
    (hid : (JVal.obj fields).field "deviceId" = some (.str deviceId))
    (hty : (JVal.obj fields).field "deviceType" = some (.str deviceType))
    (hne : deviceType ≠ "") (hd : findOne reg deviceId = some d) :
    (onMessage reg "devices/register" (some (.obj fields))).rejected = false ∧
    findOne (onMessage reg "devices/register" (some (.obj fields))).reg deviceId
      = some { d with deviceType := deviceType } ∧
    (onMessage reg "devices/register" (some (.obj fields))).reg.length = reg.length ∧
    (∀ other, other ≠ deviceId →
      findOne (onMessage reg "devices/register" (some (.obj fields))).reg other
        = findOne reg other) ∧
    (onMessage reg "devices/register" (some (.obj fields))).published = [] := by
  have hdid := findOne_deviceId hd
  have hsome : (findOne reg deviceId).isSome := by simp [hd]
  have hr : onMessage reg "devices/register" (some (.obj fields))
      = { reg := saveExisting reg deviceId { d with deviceType := deviceType },
          published := [], rejected := false } := by
    simp only [onMessage, if_true, hid, hty, filterKey, requiredString, hne, if_false,
      Option.some_bind, hd, hdid]
  rw [hr]
  refine ⟨rfl, ?_, length_saveExisting _ _ _, ?_, rfl⟩
  · exact findOne_saveExisting reg deviceId _ hdid hsome
  · intro other ho
    exact findOne_saveExisting_other reg deviceId other _ hdid ho

/-- Instance of amended C6: `lamp` re-announces itself as a `smart_switch`. -/
theorem onMessage_register_existing_witness :
    (onMessage [lampOn] "devices/register"
      (some (.obj [("deviceId", .str "lamp"), ("deviceType", .str "smart_switch")]))).rejected
      = false ∧
    findOne (onMessage [lampOn] "devices/register"
      (some (.obj [("deviceId", .str "lamp"), ("deviceType", .str "smart_switch")]))).reg "lamp"
      = some { lampOn with deviceType := "smart_switch" } ∧
    (onMessage [lampOn] "devices/register"
      (some (.obj [("deviceId", .str "lamp"), ("deviceType", .str "smart_switch")]))).reg.length
      = [lampOn].length ∧
    (∀ other, other ≠ "lamp" →
      findOne (onMessage [lampOn] "devices/register"
        (some (.obj [("deviceId", .str "lamp"), ("deviceType", .str "smart_switch")]))).reg other
        = findOne [lampOn] other) ∧
    (onMessage [lampOn] "devices/register"
      (some (.obj [("deviceId", .str "lamp"), ("deviceType", .str "smart_switch")]))).published
      = [] :=
  onMessage_register_existing [lampOn]
    [("deviceId", .str "lamp"), ("deviceType", .str "smart_switch")] "lamp" "smart_switch"
    lampOn rfl rfl (by decide) rfl

/-- C7: a `devices/register` message with deviceType `toaster`, which is not an allowed
type, is not rejected by the broker path: for the new deviceId `t1` a record of type
`toaster` is created, and the registered `lamp` has its type changed to `toaster`. -/
theorem onMessage_register_accepts_unknown_type :
    "toaster" ∉ allowedDeviceTypes ∧
    (findOne (onMessage [] "devices/register"
        (some (.obj [("deviceId", .str "t1"), ("deviceType", .str "toaster")]))).reg "t1").map
      (fun d => d.deviceType) = some "toaster" ∧
    (findOne (onMessage [lampOn] "devices/register"
        (some (.obj [("deviceId", .str "lamp"), ("deviceType", .str "toaster")]))).reg
        "lamp").map
      (fun d => d.deviceType) = some "toaster" ∧
    (postRegister [] (some "t1") (some "toaster")).resp.code = 400 := by
  refine ⟨by decide, by decide, by decide, by decide⟩

/-! ## The language of the topic pattern -/

open RegularExpression

theorem char_le_iff (a b : Char) : a ≤ b ↔ a.toNat ≤ b.toNat := by
  rw [Char.le_def]
  exact Iff.rfl

theorem mem_charRange (lo hi c : Char) (base count : Nat) (hbase : lo.toNat = base)
    (hcount : hi.toNat - lo.toNat + 1 = count)
    (hval : ∀ i < count, lo ≤ Char.ofNat (base + i) ∧ Char.ofNat (base + i) ≤ hi) :
    c ∈ charRange lo hi ↔ (lo ≤ c ∧ c ≤ hi) := by
  subst hbase hcount
  constructor
  · intro h
    simp only [charRange, List.mem_map, List.mem_range] at h
    obtain ⟨i, hi, rfl⟩ := h
    exact hval i hi
  · rintro ⟨h1, h2⟩
    rw [char_le_iff] at h1 h2
    simp only [charRange, List.mem_map, List.mem_range]
    refine ⟨c.toNat - lo.toNat, by omega, ?_⟩
    have : lo.toNat + (c.toNat - lo.toNat) = c.toNat := by omega
    rw [this, Char.ofNat_toNat]

theorem range_az : ∀ i < 26, 'a' ≤ Char.ofNat (97 + i) ∧ Char.ofNat (97 + i) ≤ 'z' := by decide
theorem range_AZ : ∀ i < 26, 'A' ≤ Char.ofNat (65 + i) ∧ Char.ofNat (65 + i) ≤ 'Z' := by decide
theorem range_09 : ∀ i < 10, '0' ≤ Char.ofNat (48 + i) ∧ Char.ofNat (48 + i) ≤ '9' := by decide

theorem mem_wordChars (c : Char) : c ∈ wordChars ↔ IsTopicChar c := by
  have h1 := mem_charRange 'a' 'z' c 97 26 rfl rfl range_az
  have h2 := mem_charRange 'A' 'Z' c 65 26 rfl rfl range_AZ
  have h3 := mem_charRange '0' '9' c 48 10 rfl rfl range_09
  unfold wordChars IsTopicChar
  rw [List.mem_append, List.mem_append, List.mem_append, h1, h2, h3, List.mem_singleton]
  constructor
  · rintro (((h | h) | h) | h)
    · exact Or.inr (Or.inl h)
    · exact Or.inl h
    · exact Or.inr (Or.inr (Or.inl h))
    · exact Or.inr (Or.inr (Or.inr h))
  · rintro (h | h | h | h)
    · exact Or.inl (Or.inl (Or.inr h))
    · exact Or.inl (Or.inl (Or.inl h))
    · exact Or.inl (Or.inr h)
    · exact Or.inr h

theorem mem_literal (cs x : List Char) :
    x ∈ (cs.foldr (fun c r => char c * r) (1 : RegularExpression Char)).matches' ↔ x = cs := by
  induction cs generalizing x with
  | nil => simp [Language.mem_one]
  | cons c cs ih =>
    simp only [List.foldr_cons, matches'_mul, matches'_char, Language.mem_mul]
    constructor
    · rintro ⟨a, ha, b, hb, rfl⟩
      rw [Set.mem_singleton_iff] at ha
      rw [(ih b).1 hb, ha]
      rfl
    · rintro rfl
      exact ⟨[c], rfl, cs, (ih cs).2 rfl, rfl⟩

theorem mem_charClass (cs x : List Char) :
    x ∈ (charClass cs).matches' ↔ ∃ c ∈ cs, x = [c] := by
  induction cs with
  | nil =>
    simp only [charClass, List.foldr_nil, matches'_zero, List.not_mem_nil, false_and,
      exists_false, iff_false]
    exact Language.not_mem_zero x
  | cons c cs ih =>
    unfold charClass at ih ⊢
    simp only [List.foldr_cons, matches'_add, matches'_char, Language.mem_add, ih,
      List.mem_cons, exists_eq_or_imp]
    rfl

theorem flatten_singletons (x : List Char) : (x.map (fun c => [c])).flatten = x := by
  induction x with
  | nil => rfl
  | cons c cs ih => simp [ih]

theorem mem_oneOrMore_charClass (cs x : List Char) :
    x ∈ (oneOrMore (charClass cs)).matches' ↔ x ≠ [] ∧ ∀ c ∈ x, c ∈ cs := by
  simp only [oneOrMore, matches'_mul, matches'_star, Language.mem_mul, Language.mem_kstar,
    mem_charClass]
  constructor
  · rintro ⟨a, ⟨c, hc, rfl⟩, b, ⟨L, rfl, hL⟩, rfl⟩
    refine ⟨by simp, ?_⟩
    intro e he
    simp only [List.singleton_append, List.mem_cons, List.mem_flatten] at he
    rcases he with rfl | ⟨y, hy, hey⟩
    · exact hc
    · obtain ⟨c2, hc2, rfl⟩ := hL y hy
      simp only [List.mem_singleton] at hey
      exact hey ▸ hc2
  · rintro ⟨hne, hall⟩
    cases x with
    | nil => exact absurd rfl hne
    | cons c rest =>
      refine ⟨[c], ⟨c, hall c (by simp), rfl⟩, rest,
        ⟨rest.map (fun c => [c]), (flatten_singletons rest).symm, ?_⟩, rfl⟩
      intro y hy
      obtain ⟨e, he, rfl⟩ := List.mem_map.1 hy
      exact ⟨e, hall e (by simp [he]), rfl⟩

theorem mem_segment (cs x : List Char) :
    x ∈ (char '/' * oneOrMore (charClass cs)).matches' ↔
      ∃ seg, (seg ≠ [] ∧ ∀ c ∈ seg, c ∈ cs) ∧ x = '/' :: seg := by
  simp only [matches'_mul, matches'_char, Language.mem_mul, mem_oneOrMore_charClass]
  constructor
  · rintro ⟨a, ha, b, hb, rfl⟩
    rw [Set.mem_singleton_iff] at ha
    exact ⟨b, hb, by rw [ha]; rfl⟩
  · rintro ⟨seg, hseg, rfl⟩
    exact ⟨['/'], rfl, seg, hseg, rfl⟩

theorem mem_segments (cs x : List Char) :
    x ∈ (star (char '/' * oneOrMore (charClass cs))).matches' ↔
      ∃ segs : List (List Char), (∀ seg ∈ segs, seg ≠ [] ∧ ∀ c ∈ seg, c ∈ cs) ∧
        x = (segs.map (fun seg => '/' :: seg)).flatten := by
  rw [matches'_star, Language.mem_kstar]
  constructor
  · rintro ⟨L, rfl, hL⟩
    refine ⟨L.map List.tail, ?_, ?_⟩
    · intro seg hseg
      obtain ⟨y, hy, rfl⟩ := List.mem_map.1 hseg
      obtain ⟨s, hs, rfl⟩ := (mem_segment cs y).1 (hL y hy)
      exact hs
    · congr 1
      rw [List.map_map]
      symm
      calc L.map ((fun seg => '/' :: seg) ∘ List.tail) = L.map id := by
            apply List.map_congr_left
            intro y hy
            obtain ⟨s, _, rfl⟩ := (mem_segment cs y).1 (hL y hy)
            rfl
        _ = L := List.map_id L
  · rintro ⟨segs, hsegs, rfl⟩
    refine ⟨segs.map (fun seg => '/' :: seg), rfl, ?_⟩
    intro y hy
    obtain ⟨s, hs, rfl⟩ := List.mem_map.1 hy
    exact (mem_segment cs _).2 ⟨s, hsegs s hs, rfl⟩

theorem mem_validTopicPattern (x : List Char) :
    x ∈ validTopicPattern.matches' ↔ TopicForm x := by
  unfold validTopicPattern TopicForm
  rw [matches'_mul, Language.mem_mul]
  simp only [matches'_add, Language.mem_add, literal, mem_literal]
  constructor
  · rintro ⟨root, hroot, rest, hrest, rfl⟩
    rw [matches'_mul, Language.mem_mul] at hrest
    obtain ⟨sl, hsl, rest2, hrest2, rfl⟩ := hrest
    rw [matches'_char, Set.mem_singleton_iff] at hsl
    rw [matches'_mul, Language.mem_mul] at hrest2
    obtain ⟨seg1, hseg1, tail, htail, rfl⟩ := hrest2
    rw [mem_oneOrMore_charClass] at hseg1
    obtain ⟨segs, hsegs, rfl⟩ := (mem_segments wordChars tail).1 htail
    refine ⟨root, seg1 :: segs, hroot, by simp, ?_, ?_⟩
    · intro seg hseg
      rcases List.mem_cons.1 hseg with rfl | h
      · exact ⟨hseg1.1, fun c hc => (mem_wordChars c).1 (hseg1.2 c hc)⟩
      · exact ⟨(hsegs seg h).1, fun c hc => (mem_wordChars c).1 ((hsegs seg h).2 c hc)⟩
    · subst hsl
      simp
  · rintro ⟨root, segs, hroot, hne, hsegs, rfl⟩
    cases segs with
    | nil => exact absurd rfl hne
    | cons seg1 segs =>
      refine ⟨root, hroot, _, ?_, rfl⟩
      rw [matches'_mul, Language.mem_mul]
      refine ⟨['/'], rfl, seg1 ++ (segs.map (fun seg => '/' :: seg)).flatten, ?_, by simp⟩
      rw [matches'_mul, Language.mem_mul]
      refine ⟨seg1, ?_, _, ?_, rfl⟩
      · rw [mem_oneOrMore_charClass]
        have := hsegs seg1 (by simp)
        exact ⟨this.1, fun c hc => (mem_wordChars c).2 (this.2 c hc)⟩
      · refine (mem_segments wordChars _).2 ⟨segs, ?_, rfl⟩
        intro seg hseg
        have := hsegs seg (by simp [hseg])
        exact ⟨this.1, fun c hc => (mem_wordChars c).2 (this.2 c hc)⟩

/-- C10: the topic validator of the publish endpoint accepts a string exactly when it is
the root `devices` or `events` followed by one or more segments, each a `/` followed by
one or more characters of `[A-Za-z0-9_]`, and nothing else. It accepts
`devices/abc_1/data` and `events/high_energy_usage`; it rejects `invalid_topic`,
`/devices/x`, `devices//x`, a bare root, a trailing slash, another root and the wildcard
characters `+` and `#`. -/
theorem validTopic_iff_topicForm :
    (∀ topic : String, validTopic topic = true ↔ TopicForm topic.data) ∧
    validTopic "devices/abc_1/data" = true ∧
    validTopic "events/high_energy_usage" = true ∧
    validTopic "invalid_topic" = false ∧
    validTopic "/devices/x" = false ∧
    validTopic "devices//x" = false ∧
    validTopic "devices" = false ∧
    validTopic "events" = false ∧
    validTopic "devices/x/" = false ∧
    validTopic "sensors/x" = false ∧
    validTopic "devices/+/data" = false ∧
    validTopic "devices/#" = false := by
  refine ⟨?_, rfl, rfl, rfl, rfl, rfl, rfl, rfl, rfl, rfl, rfl, rfl⟩
  intro topic
  unfold validTopic
  rw [RegularExpression.rmatch_iff_matches']
  exact mem_validTopicPattern topic.data

/-! ## Command endpoint: publishing -/

/-- C12: the command endpoint publishes exactly when the command is non-empty and the
device exists, and then exactly one message, to `devices/<deviceId>/commands` with payload
`{command}`; a missing or empty command answers 400 for every deviceId and a non-empty
command for an unregistered deviceId answers 404, with nothing published in both cases. -/
theorem postCommands_publishes_iff (reg : Registry) (deviceId : String)
    (command : Option String) (ack : Bool) :
    (truthy command = false →
      (postCommands reg deviceId command ack).resp.code = 400 ∧
      (postCommands reg deviceId command ack).published = []) ∧
    (truthy command = true → findOne reg deviceId = none →
      (postCommands reg deviceId command ack).resp.code = 404 ∧
      (postCommands reg deviceId command ack).published = []) ∧
    (∀ cmd, command = some cmd → cmd ≠ "" → (findOne reg deviceId).isSome →
      (postCommands reg deviceId command ack).published
        = [{ topic := "devices/" ++ deviceId ++ "/commands",
             payload := .obj [("command", .str cmd)], retain := false }]) := by
  refine ⟨?_, ?_, ?_⟩
  · intro h
    cases command with
    | none => exact ⟨rfl, rfl⟩
    | some cmd => simp [postCommands, h]
  · intro h hnone
    cases command with
    | none => simp [truthy] at h
    | some cmd => simp [postCommands, h, hnone]
  · intro cmd hcmd hne hsome
    subst hcmd
    have ht : truthy (some cmd) = true := (truthy_some cmd).2 hne
    obtain ⟨d, hd⟩ := Option.isSome_iff_exists.1 hsome
    by_cases hoff : cmd = "turn_off"
    · subst hoff
      cases ack <;> simp [postCommands, truthy, hd]
    · by_cases hon : cmd = "turn_on"
      · subst hon
        cases ack <;> simp [postCommands, truthy, hd]
      · cases ack <;> simp [postCommands, ht, hd, hoff, hon]

/-- Instance of C12: `turn_on` for the registered `lamp` is published once. -/
theorem postCommands_publishes_iff_witness :
    (postCommands [lampOn] "lamp" (some "turn_on") true).published
      = [{ topic := "devices/" ++ "lamp" ++ "/commands",
           payload := .obj [("command", .str "turn_on")], retain := false }] :=
  (postCommands_publishes_iff [lampOn] "lamp" (some "turn_on") true).2.2
    "turn_on" rfl (by decide) rfl

/-- C13: for a registered device and a non-empty command, `turn_on` and `turn_off`
included, a publish that reports an error is answered with 500 `Failed to send command.`
and the registry is left as it was. -/
theorem postCommands_publish_error (reg : Registry) (deviceId cmd : String) (d : Device)
    (hd : findOne reg deviceId = some d) (hc : cmd ≠ "") :
    (postCommands reg deviceId (some cmd) false).resp
      = ⟨500, Body.error "Failed to send command."⟩ ∧
    (postCommands reg deviceId (some cmd) false).reg = reg ∧
    findOne (postCommands reg deviceId (some cmd) false).reg deviceId = some d := by
  have ht : truthy (some cmd) = true := (truthy_some cmd).2 hc
  simp [postCommands, ht, hd]

/-- Instance of C13: `turn_off` for `lamp` with a failing publish. -/
theorem postCommands_publish_error_witness :
    (postCommands [lampOn] "lamp" (some "turn_off") false).resp
      = ⟨500, Body.error "Failed to send command."⟩ ∧
    (postCommands [lampOn] "lamp" (some "turn_off") false).reg = [lampOn] ∧
    findOne (postCommands [lampOn] "lamp" (some "turn_off") false).reg "lamp"
      = some lampOn :=
  postCommands_publish_error [lampOn] "lamp" "turn_off" lampOn rfl (by decide)

/-! ## Broker messages: decoding and routing -/

/-- C16: a payload that is not valid JSON makes the handler reject on every topic (the
`JSON.parse` call stands outside every `try`), and so does the payload `null` on
`devices/register` (the destructuring stands before the `try`); the registry is left as it
was and nothing is published. -/
theorem onMessage_undecodable_rejects :
    (∀ (reg : Registry) (topic : String),
      (onMessage reg topic none).rejected = true ∧
      (onMessage reg topic none).reg = reg ∧
      (onMessage reg topic none).published = []) ∧
    (∀ reg : Registry,
      (onMessage reg "devices/register" (some JVal.null)).rejected = true ∧
      (onMessage reg "devices/register" (some JVal.null)).reg = reg ∧
      (onMessage reg "devices/register" (some JVal.null)).published = []) ∧
    (onMessage [lampOn] (dataTopic "lamp") none).rejected = true := by
  refine ⟨fun reg topic => ⟨rfl, rfl, rfl⟩, fun reg => ?_, rfl⟩
  simp [onMessage]

/-- C17: a message on `events/high_energy_usage` with any decodable payload makes the
bridge publish exactly one message, `{command: "turn_off"}`, to
`devices/light_bulb_1/commands`, and leaves the registry as it was. -/
theorem onMessage_highEnergy (reg : Registry) (msg : JVal) :
    onMessage reg "events/high_energy_usage" (some msg)
      = { reg := reg,
          published := [{ topic := "devices/light_bulb_1/commands",
                          payload := .obj [("command", .str "turn_off")],
                          retain := false }],
          rejected := false } := by
  have h : ("events/high_energy_usage" : String) ≠ "devices/register" := by decide
  simp [onMessage, h]

/-- C18: topics that are not of the form `devices/<id>/data` are applied as device data:
a message on `devices/a/b/data` is stored in the record of device `a`, whose status
becomes `active`, and a message on `devices/data` is stored in the record of the device
named `data`. -/
theorem onMessage_loose_data_topics :
    (findOne (onMessage [trackerA] "devices/a/b/data"
        (some (.obj [("energyUsage", .num 5)]))).reg "a").map (fun d => d.status)
      = some Status.active ∧
    (findOne (onMessage [trackerA] "devices/a/b/data"
        (some (.obj [("energyUsage", .num 5)]))).reg "a").map (fun d => d.data.isSome)
      = some true ∧
    (findOne [trackerA] "a").map (fun d => d.data.isSome) = some false ∧
    (findOne (onMessage [switchNamedData] "devices/data"
        (some (.obj [("on", .bool true)]))).reg "data").map (fun d => d.data.isSome)
      = some true ∧
    (findOne [switchNamedData] "data").map (fun d => d.data.isSome) = some false := by
  refine ⟨by decide, by decide, by decide, by decide, by decide⟩

/-! ## Connect handler -/

theorem bridgeRun_append (b : Bridge) (es fs : List ClientEvent) :
    bridgeRun b (es ++ fs) = bridgeRun (bridgeRun b es) fs := by
  induction es generalizing b with
  | nil => rfl
  | cons e es ih => simp [bridgeRun, ih]

theorem bridgeRun_connects (b : Bridge) (n : Nat) :
    (bridgeRun b (List.replicate n ClientEvent.connect)).reg = b.reg ∧
    (bridgeRun b (List.replicate n ClientEvent.connect)).subscribes
      = b.subscribes ++ (List.replicate n onConnect).flatten := by
  induction n generalizing b with
  | zero => simp [bridgeRun]
  | succ n ih =>
    have h := ih (bridgeStep b ClientEvent.connect)
    simp only [List.replicate_succ, bridgeRun, List.flatten_cons]
    refine ⟨h.1, ?_⟩
    rw [h.2]
    simp [bridgeStep]

/-- C19: every run of the connect handler, the first and each later one alike, issues
exactly three subscriptions, to `devices/register`, `events/high_energy_usage` and
`devices/+/data`, and leaves the registry alone; a message received after any number of
reconnects is processed into the registry exactly as `onMessage` processes it on the
registry held before them. -/
theorem connect_resubscribes (b : Bridge) (n : Nat) (topic : String) (payload : Option JVal) :
    (bridgeStep b ClientEvent.connect).subscribes
      = b.subscribes ++ [{ topic := "devices/register", qos := 1 },
                         { topic := "events/high_energy_usage", qos := 1 },
                         { topic := "devices/+/data", qos := 1 }] ∧
    (bridgeStep b ClientEvent.connect).reg = b.reg ∧
    (bridgeRun b (List.replicate n ClientEvent.connect)).subscribes
      = b.subscribes ++ (List.replicate n onConnect).flatten ∧
    (bridgeRun b (List.replicate n ClientEvent.connect ++ [ClientEvent.message topic payload])).reg
      = (onMessage b.reg topic payload).reg := by
  refine ⟨rfl, rfl, (bridgeRun_connects b n).2, ?_⟩
  rw [bridgeRun_append]
  simp only [bridgeRun, bridgeStep]
  rw [(bridgeRun_connects b n).1]

/-! ## Event relay: forwarding -/

theorem relayMessage_observers (relay : Relay) (topic message : String) :
    (relayMessage relay topic message).observers
      = relay.observers.map
          (fun o => { o with sent := o.sent ++ handleMessage o.topicsArray topic message }) :=
  rfl

theorem filter_handleMessage (topicsArray : List String) (topic message : String)
    (rest : List (String × String)) :
    handleMessage topicsArray topic message ++
        (rest.filter (fun m => topicsArray.contains m.1)).map
          (fun m => ({ topic := m.1, message := m.2 } : SseEvent))
      = (((topic, message) :: rest).filter (fun m => topicsArray.contains m.1)).map
          (fun m => ({ topic := m.1, message := m.2 } : SseEvent)) := by
  by_cases h : topic ∈ topicsArray
  · simp [handleMessage, List.filter_cons, h]
  · simp [handleMessage, List.filter_cons, h]

theorem relayMessages_observers (relay : Relay) (msgs : List (String × String)) :
    (relayMessages relay msgs).observers
      = relay.observers.map
          (fun o => { o with
            sent := o.sent ++ (msgs.filter (fun m => o.topicsArray.contains m.1)).map
                      (fun m => ({ topic := m.1, message := m.2 } : SseEvent)) }) := by
  induction msgs generalizing relay with
  | nil => simp [relayMessages]
  | cons m rest ih =>
    obtain ⟨topic, message⟩ := m
    rw [relayMessages, ih, relayMessage_observers, List.map_map]
    apply List.map_congr_left
    intro o _
    simp only [Function.comp]
    rw [List.append_assoc, filter_handleMessage]

/-- C15: an open observer is sent exactly the inbound messages whose topic is, as a
string, one of the comma-separated topics it opened with; each event carries that topic
and the payload text unchanged, and the events are in arrival order. An entry
`devices/+/data` forwards a message on the topic `devices/+/data` and none on
`devices/x/data`. -/
theorem relay_forwards_exact_topics :
    (∀ (relay : Relay) (handle : Nat) (topics : String) (msgs : List (String × String)),
      topics ≠ "" →
      (relayMessages (getSubscribe relay handle (some topics)) msgs).observers
        = (relay.observers ++ [(⟨handle, split topics ',', []⟩ : Observer)]).map
            (fun o => { o with
              sent := o.sent ++ (msgs.filter (fun m => o.topicsArray.contains m.1)).map
                        (fun m => ({ topic := m.1, message := m.2 } : SseEvent)) })) ∧
    (∀ (topics topic message : String),
      handleMessage (split topics ',') topic message
        = if topic ∈ split topics ',' then [{ topic := topic, message := message }] else []) ∧
    handleMessage (split "devices/+/data,events/alarm" ',') "devices/x/data" "{}" = [] ∧
    handleMessage (split "devices/+/data,events/alarm" ',') "devices/+/data" "{}"
      = [{ topic := "devices/+/data", message := "{}" }] := by
  refine ⟨?_, ?_, by decide, by decide⟩
  · intro relay handle topics msgs hne
    have ht : truthy (some topics) = true := (truthy_some topics).2 hne
    rw [relayMessages_observers]
    simp [getSubscribe, ht]
  · intro topics topic message
    simp [handleMessage]

/-- Instance of C15: an observer opened with `events/alarm,devices/x/data` on three
inbound messages. -/
theorem relay_forwards_exact_topics_witness :
    (relayMessages (getSubscribe ⟨[], []⟩ 1 (some "events/alarm,devices/x/data"))
        [("events/alarm", "1"), ("devices/y/data", "2"), ("devices/x/data", "3")]).observers
      = (([] : List Observer) ++
          [(⟨1, split "events/alarm,devices/x/data" ',', []⟩ : Observer)]).map
          (fun o => { o with
            sent := o.sent ++
              ([("events/alarm", "1"), ("devices/y/data", "2"), ("devices/x/data", "3")].filter
                (fun m => o.topicsArray.contains m.1)).map
                  (fun m => ({ topic := m.1, message := m.2 } : SseEvent)) }) :=
  relay_forwards_exact_topics.1 ⟨[], []⟩ 1 "events/alarm,devices/x/data"
    [("events/alarm", "1"), ("devices/y/data", "2"), ("devices/x/data", "3")] (by decide)

/-! ## Publish endpoint -/

theorem splitChars_noSep (seg : List Char) (h : '/' ∉ seg) : splitChars '/' seg = [seg] := by
  induction seg with
  | nil => rfl
  | cons c cs ih =>
    have hc : c ≠ '/' := fun e => h (by simp [e])
    have hcs : '/' ∉ cs := fun e => h (by simp [e])
    simp [splitChars, hc, ih hcs]

theorem splitChars_segments (root : List Char) (segs : List (List Char))
    (hroot : '/' ∉ root) (hsegs : ∀ seg ∈ segs, '/' ∉ seg) :
    splitChars '/' (root ++ (segs.map (fun seg => '/' :: seg)).flatten) = root :: segs := by
  induction segs generalizing root with
  | nil => simpa using splitChars_noSep root hroot
  | cons seg rest ih =>
    have h1 : '/' ∉ seg := hsegs seg (by simp)
    have h2 : ∀ s ∈ rest, '/' ∉ s := fun s hs => hsegs s (by simp [hs])
    have h3 : root ++ ((seg :: rest).map (fun seg => '/' :: seg)).flatten
        = root ++ '/' :: (seg ++ (rest.map (fun seg => '/' :: seg)).flatten) := by simp
    rw [h3, splitChars_segment root _ hroot, ih seg h1 h2]

theorem not_isTopicChar_slash : ¬ IsTopicChar '/' := by
  unfold IsTopicChar
  decide

/-- A topic that passes the validator is not empty and splits at `/` into its root,
`devices` or `events`, a non-empty second segment, and the remaining segments. -/
theorem validTopic_split (topic : String) (hv : validTopic topic = true) :
    topic ≠ "" ∧ ∃ (seg : String) (rest : List String), seg ≠ "" ∧
      (split topic '/' = "devices" :: seg :: rest ∨
       split topic '/' = "events" :: seg :: rest) := by
  constructor
  · rintro rfl
    exact absurd hv (by decide)
  · unfold validTopic at hv
    rw [RegularExpression.rmatch_iff_matches'] at hv
    obtain ⟨root, segs, hroot, hne, hsegs, hdata⟩ := (mem_validTopicPattern topic.data).1 hv
    have hslash : ∀ seg ∈ segs, '/' ∉ seg := by
      intro seg hseg hmem
      exact not_isTopicChar_slash ((hsegs seg hseg).2 '/' hmem)
    have hr : '/' ∉ root := by
      rcases hroot with rfl | rfl <;> decide
    have hsplit : split topic '/' = (root :: segs).map String.mk := by
      unfold split
      rw [hdata, splitChars_segments root segs hr hslash]
    cases segs with
    | nil => exact absurd rfl hne
    | cons seg rest =>
      have hseg : String.mk seg ≠ "" := by
        intro h
        have := congrArg String.data h
        exact (hsegs seg (by simp)).1 this
      refine ⟨String.mk seg, rest.map String.mk, hseg, ?_⟩
      rcases hroot with rfl | rfl
      · left; rw [hsplit]; rfl
      · right; rw [hsplit]; rfl

/-- C11: for a topic that passes the validator and a message that passes the presence
check, with `seg` the topic's second segment: if the root is `devices` and no device with
id `seg` is registered, the publish endpoint answers 400 with the error
`Device <seg> not registered.` and publishes nothing; if that device is registered, or the
root is `events`, it publishes the message to exactly that topic, once, and answers 200
when the publish is acknowledged. -/
theorem postPublish_device_check (reg : Registry) (topic : String) (message : JVal)
    (ack : Bool) (hv : validTopic topic = true) (hm : jsTruthy (some message) = true) :
    ∃ root seg, (split topic '/')[0]? = some root ∧ (split topic '/')[1]? = some seg ∧
      (root = "devices" ∨ root = "events") ∧
      (root = "devices" → findOne reg seg = none →
        (postPublish reg (some topic) (some message) ack).resp
          = ⟨400, Body.error ("Device " ++ seg ++ " not registered.")⟩ ∧
        (postPublish reg (some topic) (some message) ack).published = [] ∧
        (postPublish reg (some topic) (some message) ack).reg = reg) ∧
      ((root = "events" ∨ (findOne reg seg).isSome) →
        (postPublish reg (some topic) (some message) ack).published
          = [{ topic := topic, payload := message, retain := false }] ∧
        (postPublish reg (some topic) (some message) ack).reg = reg ∧
        (ack = true → (postPublish reg (some topic) (some message) ack).resp.code = 200)) := by
  obtain ⟨hne, seg, rest, hseg, hsplit⟩ := validTopic_split topic hv
  have ht : truthy (some topic) = true := (truthy_some topic).2 hne
  have hts : truthy (some seg) = true := (truthy_some seg).2 hseg
  rcases hsplit with hs | hs
  · refine ⟨"devices", seg, by simp [hs], by simp [hs], Or.inl rfl, ?_, ?_⟩
    · intro _ hnone
      simp [postPublish, ht, hm, hv, hs, hts, hnone]
    · intro h
      rcases h with h | h
      · exact absurd h (by decide)
      · obtain ⟨d, hd⟩ := Option.isSome_iff_exists.1 h
        cases ack <;> simp [postPublish, ht, hm, hv, hs, hts, hd]
  · refine ⟨"events", seg, by simp [hs], by simp [hs], Or.inr rfl, ?_, ?_⟩
    · intro h
      exact absurd h (by decide)
    · intro _
      cases ack <;> simp [postPublish, ht, hm, hv, hs]

/-- Instance of C11: a publish to `devices/unknown/data` with no device registered. -/
theorem postPublish_device_check_witness :
    ∃ root seg, (split "devices/unknown/data" '/')[0]? = some root ∧
      (split "devices/unknown/data" '/')[1]? = some seg ∧
      (root = "devices" ∨ root = "events") ∧
      (root = "devices" → findOne [] seg = none →
        (postPublish [] (some "devices/unknown/data") (some (JVal.obj [])) true).resp
          = ⟨400, Body.error ("Device " ++ seg ++ " not registered.")⟩ ∧
        (postPublish [] (some "devices/unknown/data") (some (JVal.obj [])) true).published = [] ∧
        (postPublish [] (some "devices/unknown/data") (some (JVal.obj [])) true).reg = []) ∧
      ((root = "events" ∨ (findOne [] seg).isSome) →
        (postPublish [] (some "devices/unknown/data") (some (JVal.obj [])) true).published
          = [{ topic := "devices/unknown/data", payload := JVal.obj [], retain := false }] ∧
        (postPublish [] (some "devices/unknown/data") (some (JVal.obj [])) true).reg = [] ∧
        (true = true →
          (postPublish [] (some "devices/unknown/data") (some (JVal.obj [])) true).resp.code
            = 200)) :=
  postPublish_device_check [] "devices/unknown/data" (JVal.obj []) true rfl rfl

/-- The end-to-end example of the publish endpoint: `devices/unknown/data` with no device
registered is answered with 400 `Device unknown not registered.`. -/
theorem postPublish_unknown_device :
    (postPublish [] (some "devices/unknown/data") (some (JVal.obj [("k", JVal.num 1)])) true).resp
      = ⟨400, Body.error "Device unknown not registered."⟩ := by
  rfl

/-! ## Event relay: broker-level subscriptions -/

theorem mem_brokerSubscribe (subscribed topics : List String) (t : String) :
    t ∈ brokerSubscribe subscribed topics ↔ t ∈ topics ∨ t ∈ subscribed := by
  unfold brokerSubscribe
  induction topics generalizing subscribed with
  | nil => simp
  | cons u rest ih =>
    rw [List.foldl_cons, ih]
    by_cases hu : subscribed.contains u = true
    · have hmem : u ∈ subscribed := by simpa using hu
      simp only [hu, if_true, List.mem_cons]
      constructor
      · rintro (h | h)
        · exact Or.inl (Or.inr h)
        · exact Or.inr h
      · rintro ((h | h) | h)
        · exact Or.inr (h ▸ hmem)
        · exact Or.inl h
        · exact Or.inr h
    · have hu2 : subscribed.contains u = false := by simpa using hu
      simp only [hu2, Bool.false_eq_true, if_false, List.mem_cons, List.mem_append,
        List.not_mem_nil, or_false]
      constructor
      · rintro (h | h | h)
        · exact Or.inl (Or.inr h)
        · exact Or.inr h
        · exact Or.inl (Or.inl h)
      · rintro ((h | h) | h)
        · exact Or.inr (Or.inr h)
        · exact Or.inl h
        · exact Or.inr (Or.inl h)

theorem mem_brokerUnsubscribe (subscribed topics : List String) (t : String) :
    t ∈ brokerUnsubscribe subscribed topics ↔ t ∈ subscribed ∧ t ∉ topics := by
  simp [brokerUnsubscribe, List.mem_filter]

theorem brokerHeld_append (initial : List String) (calls : List BrokerCall) (c : BrokerCall) :
    brokerHeld initial (calls ++ [c]) = brokerStep (brokerHeld initial calls) c := by
  simp [brokerHeld, List.foldl_append]

/-- C14, as stated, fails: observers 1 and 2 both open with `events/alarm` in their sets;
when observer 1 disconnects the relay unsubscribes `events/alarm`; observer 2 is still open
with `events/alarm` in its set, but `events/alarm` is no longer subscribed at the broker. -/
theorem relay_unsubscribes_shared_topic :
    (onClose (getSubscribe (getSubscribe ⟨[], []⟩ 1 (some "events/alarm")) 2
        (some "events/alarm,devices/x/data")) 1).observers
      = [{ handle := 2, topicsArray := ["events/alarm", "devices/x/data"], sent := [] }] ∧
    (onClose (getSubscribe (getSubscribe ⟨[], []⟩ 1 (some "events/alarm")) 2
        (some "events/alarm,devices/x/data")) 1).calls
      = [BrokerCall.subscribe ["events/alarm"],
         BrokerCall.subscribe ["events/alarm", "devices/x/data"],
         BrokerCall.unsubscribe ["events/alarm"]] ∧
    brokerHeld [] (getSubscribe (getSubscribe ⟨[], []⟩ 1 (some "events/alarm")) 2
        (some "events/alarm,devices/x/data")).calls
      = some ["events/alarm", "devices/x/data"] ∧
    brokerHeld [] (onClose (getSubscribe (getSubscribe ⟨[], []⟩ 1 (some "events/alarm")) 2
        (some "events/alarm,devices/x/data")) 1).calls
      = some ["devices/x/data"] ∧
    "events/alarm" ∉ ["devices/x/data"] := by
  refine ⟨by decide, by decide, by decide, by decide, by decide⟩

/-- C14, amended: an inbound message on T is sent to every open observer whose topic set
contains T. When an observer opens, the relay issues one subscribe call for its set; when
an open observer disconnects, only its own handler is detached and the relay issues one
unsubscribe call for its whole set, whatever the sets of the observers that stay open.
With filters of known form and the held filters determined before the call, T is
subscribed at the broker after an open iff the opening set contains T or T was subscribed
before, and after a disconnect iff T was subscribed before and the set of the observer
that disconnects does not contain T. -/
theorem relay_subscription_steps (relay : Relay) (T : String) :
    (∀ (message : String) (o : Observer), o ∈ relay.observers → T ∈ o.topicsArray →
      { o with sent := o.sent ++ [{ topic := T, message := message }] }
        ∈ (relayMessage relay T message).observers) ∧
    (∀ (handle : Nat) (topics : String), topics ≠ "" →
      (getSubscribe relay handle (some topics)).calls
        = relay.calls ++ [BrokerCall.subscribe (split topics ',')] ∧
      ∀ (initial held : List String), brokerHeld initial relay.calls = some held →
        (split topics ',').all knownFilter = true →
        ∃ after, brokerHeld initial (getSubscribe relay handle (some topics)).calls = some after ∧
          (T ∈ after ↔ T ∈ split topics ',' ∨ T ∈ held)) ∧
    (∀ (handle : Nat) (o : Observer),
      relay.observers.find? (fun p => p.handle = handle) = some o →
      (onClose relay handle).observers
        = relay.observers.filter (fun p => p.handle != handle) ∧
      (onClose relay handle).calls = relay.calls ++ [BrokerCall.unsubscribe o.topicsArray] ∧
      ∀ (initial held : List String), brokerHeld initial relay.calls = some held →
        o.topicsArray.all knownFilter = true →
        ∃ after, brokerHeld initial (onClose relay handle).calls = some after ∧
          (T ∈ after ↔ T ∈ held ∧ T ∉ o.topicsArray)) := by
  refine ⟨?_, ?_, ?_⟩
  · intro message o ho hT
    rw [relayMessage_observers]
    refine List.mem_map.2 ⟨o, ho, ?_⟩
    simp [handleMessage, hT]
  · intro handle topics hne
    have ht : truthy (some topics) = true := (truthy_some topics).2 hne
    have hcalls : (getSubscribe relay handle (some topics)).calls
        = relay.calls ++ [BrokerCall.subscribe (split topics ',')] := by
      simp [getSubscribe, ht]
    refine ⟨hcalls, ?_⟩
    intro initial held hheld hknown
    refine ⟨brokerSubscribe held (split topics ','), ?_, mem_brokerSubscribe _ _ _⟩
    rw [hcalls, brokerHeld_append, hheld]
    simp [brokerStep, hknown]
  · intro handle o ho
    have hcalls : (onClose relay handle).calls
        = relay.calls ++ [BrokerCall.unsubscribe o.topicsArray] := by
      simp [onClose, ho]
    refine ⟨by simp [onClose, ho], hcalls, ?_⟩
    intro initial held hheld hknown
    refine ⟨brokerUnsubscribe held o.topicsArray, ?_, mem_brokerUnsubscribe _ _ _⟩
    rw [hcalls, brokerHeld_append, hheld]
    simp [brokerStep, hknown]

/-- Instance of amended C14: the disconnect of observer 1, opened with `events/alarm`,
while observer 2 is open with `events/alarm` too and `events/alarm` is held. -/
theorem relay_subscription_steps_witness :
    ∃ after,
      brokerHeld []
          (onClose ⟨[⟨1, ["events/alarm"], []⟩, ⟨2, ["events/alarm"], []⟩],
            [BrokerCall.subscribe ["events/alarm"], BrokerCall.subscribe ["events/alarm"]]⟩
            1).calls = some after ∧
      ("events/alarm" ∈ after ↔
        "events/alarm" ∈ ["events/alarm"] ∧
          "events/alarm" ∉ (⟨1, ["events/alarm"], []⟩ : Observer).topicsArray) :=
  ((relay_subscription_steps
      ⟨[⟨1, ["events/alarm"], []⟩, ⟨2, ["events/alarm"], []⟩],
        [BrokerCall.subscribe ["events/alarm"], BrokerCall.subscribe ["events/alarm"]]⟩
      "events/alarm").2.2 1 ⟨1, ["events/alarm"], []⟩ rfl).2.2
    [] ["events/alarm"] (by decide) (by decide)

/-- An observer opened with `events/a,` subscribes the entries `events/a` and the empty
string; the empty string is not a filter of known form, and the filters held afterwards
are not determined by the broker model. -/
theorem brokerHeld_empty_entry :
    (getSubscribe ⟨[], []⟩ 1 (some "events/a,")).calls
      = [BrokerCall.subscribe ["events/a", ""]] ∧
    brokerHeld [] (getSubscribe ⟨[], []⟩ 1 (some "events/a,")).calls = none := by
  refine ⟨by decide, by decide⟩

end SmartHome
